import Mathlib

/-!
Verification of the UAV waypoint deconfliction service.

The source (scenario.py, geometry.py, engine.py) is shallowly embedded:
positions and times are exact rationals (the Python floats are modelled by
real-valued arithmetic, following the spec's "real-valued" data model), and
a separation value — which in the source is a floating-point square root —
is represented exactly by its square (structure `SepVal`), so that every
comparison and the one-decimal rounding performed by the engine stay
computable and decidable.
-/

namespace Deconfliction

/-- Single 4D waypoint along a drone trajectory (scenario.py, `Waypoint`). -/
structure Waypoint where
  x : ℚ
  y : ℚ
  z : ℚ
  time : ℚ
deriving DecidableEq

/-- Tunable configuration (scenario.py, `DeconflictionConfig`). -/
structure DeconflictionConfig where
  safety_radius_m : ℚ
  samples_per_segment : ℕ
deriving DecidableEq

/-- The single global config instance (scenario.py, `CONFIG`):
safety radius 25.0 m, 10 samples per segment. -/
def CONFIG : DeconflictionConfig := { safety_radius_m := 25, samples_per_segment := 10 }

/-- A mission record (the dictionary built by `define_perimeter_scan_mission`). -/
structure Mission where
  mission_id : String
  waypoints : List Waypoint
  t_start : ℚ
  t_end : ℚ
deriving DecidableEq

/-- A scheduled-flight record (the dictionaries built by `define_scheduled_traffic`). -/
structure Flight where
  id : String
  role : String
  waypoints : List Waypoint
  t_start : ℚ
  t_end : ℚ
deriving DecidableEq

/-- The perimeter-scan mission (scenario.py, `define_perimeter_scan_mission`). -/
def define_perimeter_scan_mission : Mission :=
  { mission_id := "night_perimeter_scan_pune_hub_v1"
    waypoints :=
      [ ⟨0,   -20, 60,   0⟩
      , ⟨120, -20, 60,  60⟩
      , ⟨120,  80, 60, 180⟩
      , ⟨0,    80, 60, 300⟩ ]
    t_start := 0
    t_end := 600 }

/-- The scheduled traffic around the hub (scenario.py, `define_scheduled_traffic`). -/
def define_scheduled_traffic : List Flight :=
  [ { id := "early_cargo_south_corridor"
      role := "cargo"
      waypoints := [⟨-50, -30, 80, 120⟩, ⟨200, -30, 80, 260⟩]
      t_start := 120
      t_end := 260 }
  , { id := "urban_diag_delivery"
      role := "delivery"
      waypoints := [⟨-50, -50, 100, 100⟩, ⟨200, 200, 100, 400⟩]
      t_start := 100
      t_end := 400 }
  , { id := "emergency_overpass_lane"
      role := "emergency"
      waypoints := [⟨0, 150, 130, 50⟩, ⟨150, -50, 130, 250⟩]
      t_start := 50
      t_end := 250 } ]

/-- A sampled 3D point (one row of the `(N, 3)` numpy array). -/
structure Point3 where
  x : ℚ
  y : ℚ
  z : ℚ
deriving DecidableEq

/-- Squared Euclidean distance between two sampled 3D points.  The source's
`np.linalg.norm` of the difference is the square root of this value. -/
def sqDist (p q : Point3) : ℚ :=
  (p.x - q.x) ^ 2 + (p.y - q.y) ^ 2 + (p.z - q.z) ^ 2

/-- Exact representation of a nonnegative separation value: the field `sq`
holds the square of the represented value, so the value itself is `√sq`.
The source manipulates the floating-point square root directly; all its
uses (min, order comparisons against rationals, rounding) are mirrored
exactly on this representation. -/
structure SepVal where
  sq : ℚ
deriving DecidableEq

/-- Order comparison of a separation value against a rational threshold:
`√v.sq < c` iff `c` is positive and `v.sq < c²` (for the nonnegative
radicands produced by the engine). -/
def SepVal.ltRat (v : SepVal) (c : ℚ) : Bool :=
  decide (0 < c) && decide (v.sq < c ^ 2)

/-- Minimum of two separation values (min commutes with the square root on
nonnegative radicands). -/
def SepVal.minv (a b : SepVal) : SepVal := ⟨min a.sq b.sq⟩

/-- Structural helper computing a bit-length bound: `bitLenAux fuel n`
counts halvings of `n` down to zero, with explicit fuel. -/
def bitLenAux : ℕ → ℕ → ℕ
  | 0, _ => 0
  | fuel + 1, n => if n = 0 then 0 else bitLenAux fuel (n / 2) + 1

/-- Number of binary digits of `n` (0 for 0); `n` itself is ample fuel. -/
def bitLen (n : ℕ) : ℕ := bitLenAux n n

/-- Digit-by-digit integer square root: fills in bits of the root from the
high bit down. -/
def isqrtFrom (n : ℕ) : ℕ → ℕ → ℕ
  | r, 0 => r
  | r, b + 1 =>
    let r2 := r + 2 ^ b
    if r2 * r2 ≤ n then isqrtFrom n r2 b else isqrtFrom n r b

/-- Integer square root (largest `k` with `k² ≤ n`), defined structurally so
the kernel can evaluate it. -/
def isqrt (n : ℕ) : ℕ := isqrtFrom n 0 (bitLen n)

/-- Nearest natural number to `√q` (for `q ≥ 0`), ties going to the even
neighbour, mirroring Python's banker's rounding. -/
def nearestIntSqrt (q : ℚ) : ℕ :=
  let k := isqrt q.floor.toNat
  if q < ((k : ℚ) + 1 / 2) ^ 2 then k
  else if ((k : ℚ) + 1 / 2) ^ 2 < q then k + 1
  else if k % 2 = 0 then k else k + 1

/-- The engine's `round(separation, 1)` on a separation value given by its
square: the nearest multiple of one tenth to `√sq`. -/
def round1_sqrt (sq : ℚ) : ℚ := (nearestIntSqrt (100 * sq) : ℚ) / 10

/-- `np.linspace a b num` with endpoint (the only mode the source uses). -/
def linspace (a b : ℚ) (num : ℕ) : List ℚ :=
  (List.range num).map fun (i : ℕ) => a + (i : ℚ) * (b - a) / ((num : ℚ) - 1)

/-- One-dimensional linear interpolation over a list of `(time, value)`
nodes, matching `np.interp` on increasing node times: clamps to the first
and last values outside the node range and blends linearly inside. -/
def interpPoints : List (ℚ × ℚ) → ℚ → ℚ
  | [], _ => 0
  | [(_, f0)], _ => f0
  | (x0, f0) :: (x1, f1) :: rest, t =>
    if t ≤ x0 then f0
    else if t ≤ x1 then f0 + (t - x0) * (f1 - f0) / (x1 - x0)
    else interpPoints ((x1, f1) :: rest) t

/-- Trajectory sampler (geometry.py, `interpolate_trajectory_3d`): sample
times are a single linspace of `max(len(waypoints) * samples_per_segment, 2)`
points over `[times[0], times[-1]]`, and each coordinate is interpolated
independently against the time axis.  (The source resolves a `None`
density argument to `CONFIG.samples_per_segment`; callers here pass the
density explicitly.) -/
def interpolate_trajectory_3d (waypoints : List Waypoint)
    (samples_per_segment : ℕ) : List Point3 × List ℚ :=
  let times := waypoints.map (·.time)
  let total_samples := max (waypoints.length * samples_per_segment) 2
  let t_interp := linspace (times.headD 0) (times.getLastD 0) total_samples
  let xs := waypoints.map fun wp => (wp.time, wp.x)
  let ys := waypoints.map fun wp => (wp.time, wp.y)
  let zs := waypoints.map fun wp => (wp.time, wp.z)
  (t_interp.map fun t => ⟨interpPoints xs t, interpPoints ys t, interpPoints zs t⟩,
   t_interp)

/-- The list of all `N × M` pairwise squared distances between two sampled
trajectories, in row-major order. -/
def pairSqDists (traj1 traj2 : List Point3) : List ℚ :=
  traj1.flatMap fun p => traj2.map fun q => sqDist p q

/-- Separation estimator (geometry.py, `compute_min_separation`): minimum
Euclidean distance over all sample pairs, represented by its square.  The
source's `np.min` faults on empty input; the embedding returns 0 there
(callers guarantee nonemptiness via the sampler's floor of 2 samples). -/
def compute_min_separation (traj1 traj2 : List Point3) : SepVal :=
  match pairSqDists traj1 traj2 with
  | [] => ⟨0⟩
  | d :: ds => ⟨ds.foldl min d⟩

/-- Temporal filter (engine.py, `time_windows_overlap`). -/
def time_windows_overlap (t1_start t1_end t2_start t2_end : ℚ) : Bool :=
  decide (max t1_start t2_start < min t1_end t2_end)

/-- Risk classifier (engine.py, `classify_risk_level`).  The source's
`float("inf")` sentinel for "no temporally overlapping traffic" is the
`none` case. -/
def classify_risk_level (worst_sep : Option SepVal) (safety_radius : ℚ) : String :=
  match worst_sep with
  | none => "low"
  | some w =>
    if w.ltRat safety_radius then "high"
    else if w.ltRat (2 * safety_radius) then "medium"
    else "low"

/-- Per-flight conflict details (the dictionaries appended to `conflicts`
in engine.py). -/
structure Conflict where
  drone_id : String
  role : String
  min_separation_m : ℚ
  overlap_window_s : ℚ × ℚ
deriving DecidableEq

/-- The clearance result dictionary returned by `evaluate_mission_clearance`. -/
structure ClearanceResult where
  status : String
  risk_level : String
  worst_separation_m : Option ℚ
  conflicts : List Conflict
  mission : Mission
  config : DeconflictionConfig
deriving DecidableEq

/-- Sampled trajectory of a waypoint list at the engine's density: the
engine's calls `interpolate_trajectory_3d(...)` pass no density, which the
source resolves to the global `CONFIG.samples_per_segment`. -/
def sampledTraj (waypoints : List Waypoint) : List Point3 :=
  (interpolate_trajectory_3d waypoints CONFIG.samples_per_segment).1

/-- The separation the evaluator computes for one scheduled flight:
`compute_min_separation(mission_traj, traffic_traj)` in engine.py (the
mission is sampled once before the loop; sampling is a pure function, so
it is inlined here). -/
def flightSeparation (mission : Mission) (flight : Flight) : SepVal :=
  compute_min_separation (sampledTraj mission.waypoints) (sampledTraj flight.waypoints)

/-- The evaluator's temporal gate for one scheduled flight. -/
def flightOverlaps (mission : Mission) (flight : Flight) : Bool :=
  time_windows_overlap mission.t_start mission.t_end flight.t_start flight.t_end

/-- The conflict dictionary the evaluator appends for a violating flight:
identifier, role, separation rounded to one decimal, and the overlap
window `(max of starts, min of ends)`. -/
def mkConflict (mission : Mission) (flight : Flight) : Conflict :=
  { drone_id := flight.id
    role := flight.role
    min_separation_m := round1_sqrt (flightSeparation mission flight).sq
    overlap_window_s :=
      (max mission.t_start flight.t_start, min mission.t_end flight.t_end) }

/-- One iteration of the evaluator's traffic loop (engine.py,
`evaluate_mission_clearance`, body of the `for flight in ...` loop):
skip the flight unless time windows overlap, otherwise fold its
separation into the running worst case and append a conflict when the
separation is strictly below the safety radius. -/
def clearanceStep (mission : Mission) (config : DeconflictionConfig)
    (acc : Option SepVal × List Conflict) (flight : Flight) :
    Option SepVal × List Conflict :=
  if flightOverlaps mission flight then
    let separation := flightSeparation mission flight
    (some (match acc.1 with
           | none => separation
           | some w => w.minv separation),
     if separation.ltRat config.safety_radius_m then acc.2 ++ [mkConflict mission flight]
     else acc.2)
  else acc

/-- The evaluator's traffic loop: running worst separation (`none` models
the initial `float("inf")`) and accumulated conflict list. -/
def worst_and_conflicts (mission : Mission) (traffic : List Flight)
    (config : DeconflictionConfig) : Option SepVal × List Conflict :=
  traffic.foldl (clearanceStep mission config) (none, [])

/-- The evaluator's per-flight conflict condition: temporal overlap and a
separation strictly below the safety radius. -/
def conflictPred (mission : Mission) (config : DeconflictionConfig)
    (flight : Flight) : Bool :=
  flightOverlaps mission flight &&
    (flightSeparation mission flight).ltRat config.safety_radius_m

/-- Clearance evaluator (engine.py, `evaluate_mission_clearance`), with the
traffic collection abstracted as a parameter; the source's function always
iterates `define_scheduled_traffic()`, recovered below.  Note the source
samples trajectories with the global `CONFIG.samples_per_segment`
irrespective of the `config` argument, which only supplies the safety
radius; the embedding mirrors that. -/
def evaluate_mission_clearance_on (mission : Mission) (traffic : List Flight)
    (config : DeconflictionConfig) : ClearanceResult :=
  let wc := worst_and_conflicts mission traffic config
  { status := if wc.2.isEmpty then "clear" else "blocked"
    risk_level := classify_risk_level wc.1 config.safety_radius_m
    worst_separation_m := wc.1.map fun w => round1_sqrt w.sq
    conflicts := wc.2
    mission := mission
    config := config }

/-- Entry point (engine.py, `evaluate_mission_clearance`): a `none` mission
argument selects the built-in perimeter-scan mission, and the traffic is
always `define_scheduled_traffic`. -/
def evaluate_mission_clearance (mission : Option Mission)
    (config : DeconflictionConfig) : ClearanceResult :=
  evaluate_mission_clearance_on (mission.getD define_perimeter_scan_mission)
    define_scheduled_traffic config

/-- Test scenario from the spec's testable properties (mirroring
`test_exact_safety_buffer_is_clear`): a straight mission segment along the
x axis at altitude 100. -/
def parallel_mission : Mission :=
  { mission_id := "parallel_segment_a"
    waypoints := [⟨0, 0, 100, 0⟩, ⟨100, 0, 100, 10⟩]
    t_start := 0
    t_end := 10 }

/-- Test scenario from the spec's testable properties: the same segment
translated by exactly the default safety radius (25) along the y axis. -/
def parallel_flight : Flight :=
  { id := "parallel_segment_b"
    role := "cargo"
    waypoints := [⟨0, 25, 100, 0⟩, ⟨100, 25, 100, 10⟩]
    t_start := 0
    t_end := 10 }

/-- The first scheduled flight of the default traffic (the early cargo
corridor along the south edge), named for use in concrete statements. -/
def early_cargo_flight : Flight :=
  { id := "early_cargo_south_corridor"
    role := "cargo"
    waypoints := [⟨-50, -30, 80, 120⟩, ⟨200, -30, 80, 260⟩]
    t_start := 120
    t_end := 260 }

/-- A flight spatially identical to the early cargo corridor but scheduled
far in the future, so its window cannot overlap the default mission's. -/
def far_future_flight : Flight :=
  { id := "late_cargo_south_corridor"
    role := "cargo"
    waypoints := [⟨-50, -30, 80, 10120⟩, ⟨200, -30, 80, 10260⟩]
    t_start := 10120
    t_end := 10260 }

/-! ### Helper lemmas: minima of lists of rationals -/

theorem foldl_min_le_init (l : List ℚ) (a : ℚ) : l.foldl min a ≤ a := by
  induction l generalizing a with
  | nil => simp
  | cons x xs ih => exact le_trans (ih (min a x)) (min_le_left a x)

theorem foldl_min_le_mem (l : List ℚ) (a : ℚ) {x : ℚ} (hx : x ∈ l) :
    l.foldl min a ≤ x := by
  induction l generalizing a with
  | nil => cases hx
  | cons y ys ih =>
    rcases List.mem_cons.mp hx with h | h
    · subst h
      exact le_trans (foldl_min_le_init ys (min a x)) (min_le_right a x)
    · exact ih (min a y) h

theorem le_foldl_min {l : List ℚ} {c : ℚ} (a : ℚ) (ha : c ≤ a)
    (h : ∀ x ∈ l, c ≤ x) : c ≤ l.foldl min a := by
  induction l generalizing a with
  | nil => simpa using ha
  | cons x xs ih =>
    exact ih (min a x) (le_min ha (h x (by simp)))
      (fun y hy => h y (List.mem_cons_of_mem x hy))

theorem foldl_min_mem (l : List ℚ) (a : ℚ) : l.foldl min a ∈ a :: l := by
  induction l generalizing a with
  | nil => simp
  | cons x xs ih =>
    have hm := ih (min a x)
    rcases List.mem_cons.mp hm with h | h
    · rcases min_choice a x with hc | hc
      · rw [List.foldl_cons, h, hc]; exact List.mem_cons_self _ _
      · rw [List.foldl_cons, h, hc]
        exact List.mem_cons_of_mem _ (List.mem_cons_self _ _)
    · rw [List.foldl_cons]
      exact List.mem_cons_of_mem _ (List.mem_cons_of_mem _ h)

/-! ### Helper lemmas: the separation estimator -/

theorem sqDist_nonneg (p q : Point3) : 0 ≤ sqDist p q := by
  unfold sqDist; positivity

theorem sqDist_comm (p q : Point3) : sqDist p q = sqDist q p := by
  unfold sqDist; ring

theorem sepVal_eq_of_sq_eq {a b : SepVal} (h : a.sq = b.sq) : a = b := by
  cases a; cases b; simpa using h

theorem mem_pairSqDists {t1 t2 : List Point3} {p q : Point3}
    (hp : p ∈ t1) (hq : q ∈ t2) : sqDist p q ∈ pairSqDists t1 t2 := by
  unfold pairSqDists
  exact List.mem_flatMap.mpr ⟨p, hp, List.mem_map.mpr ⟨q, hq, rfl⟩⟩

theorem pairSqDists_sound {t1 t2 : List Point3} {d : ℚ}
    (hd : d ∈ pairSqDists t1 t2) : ∃ p ∈ t1, ∃ q ∈ t2, d = sqDist p q := by
  unfold pairSqDists at hd
  obtain ⟨p, hp, hmem⟩ := List.mem_flatMap.mp hd
  obtain ⟨q, hq, rfl⟩ := List.mem_map.mp hmem
  exact ⟨p, hp, q, hq, rfl⟩

theorem compute_min_separation_le {t1 t2 : List Point3} {p q : Point3}
    (hp : p ∈ t1) (hq : q ∈ t2) :
    (compute_min_separation t1 t2).sq ≤ sqDist p q := by
  have hmem := mem_pairSqDists hp hq
  cases hps : pairSqDists t1 t2 with
  | nil => rw [hps] at hmem; cases hmem
  | cons d ds =>
    rw [hps] at hmem
    simp only [compute_min_separation, hps]
    rcases List.mem_cons.mp hmem with h | h
    · rw [← h]; exact foldl_min_le_init ds (sqDist p q)
    · exact foldl_min_le_mem ds d h

theorem le_compute_min_separation {t1 t2 : List Point3} {c : ℚ}
    (h1 : t1 ≠ []) (h2 : t2 ≠ [])
    (h : ∀ p ∈ t1, ∀ q ∈ t2, c ≤ sqDist p q) :
    c ≤ (compute_min_separation t1 t2).sq := by
  obtain ⟨p, hp⟩ := List.exists_mem_of_ne_nil t1 h1
  obtain ⟨q, hq⟩ := List.exists_mem_of_ne_nil t2 h2
  have hmem := mem_pairSqDists hp hq
  cases hps : pairSqDists t1 t2 with
  | nil => rw [hps] at hmem; cases hmem
  | cons d ds =>
    simp only [compute_min_separation, hps]
    have hall : ∀ x ∈ pairSqDists t1 t2, c ≤ x := by
      intro x hx
      obtain ⟨p', hp', q', hq', rfl⟩ := pairSqDists_sound hx
      exact h p' hp' q' hq'
    refine le_foldl_min d (hall d (by rw [hps]; simp)) ?_
    intro x hx
    exact hall x (by rw [hps]; exact List.mem_cons_of_mem _ hx)

theorem compute_min_separation_nonneg (t1 t2 : List Point3) :
    0 ≤ (compute_min_separation t1 t2).sq := by
  have hall : ∀ x ∈ pairSqDists t1 t2, (0 : ℚ) ≤ x := by
    intro x hx
    obtain ⟨p', _, q', _, rfl⟩ := pairSqDists_sound hx
    exact sqDist_nonneg p' q'
  cases hps : pairSqDists t1 t2 with
  | nil => simp [compute_min_separation, hps]
  | cons d ds =>
    simp only [compute_min_separation, hps]
    refine le_foldl_min d (hall d (by rw [hps]; simp)) ?_
    intro x hx
    exact hall x (by rw [hps]; exact List.mem_cons_of_mem _ hx)

theorem compute_min_separation_attained {t1 t2 : List Point3}
    (h1 : t1 ≠ []) (h2 : t2 ≠ []) :
    ∃ p ∈ t1, ∃ q ∈ t2, (compute_min_separation t1 t2).sq = sqDist p q := by
  obtain ⟨p, hp⟩ := List.exists_mem_of_ne_nil t1 h1
  obtain ⟨q, hq⟩ := List.exists_mem_of_ne_nil t2 h2
  have hmem := mem_pairSqDists hp hq
  cases hps : pairSqDists t1 t2 with
  | nil => rw [hps] at hmem; cases hmem
  | cons d ds =>
    simp only [compute_min_separation, hps]
    have hm : ds.foldl min d ∈ pairSqDists t1 t2 := by
      rw [hps]; exact foldl_min_mem ds d
    exact pairSqDists_sound hm

theorem pairSqDists_nil_left (t : List Point3) : pairSqDists [] t = [] := rfl

theorem pairSqDists_nil_right (t : List Point3) : pairSqDists t [] = [] := by
  unfold pairSqDists
  induction t with
  | nil => rfl
  | cons p ps ih => simp [ih]

theorem compute_min_separation_comm (t1 t2 : List Point3) :
    compute_min_separation t1 t2 = compute_min_separation t2 t1 := by
  by_cases h1 : t1 = []
  · subst h1
    simp [compute_min_separation, pairSqDists_nil_left, pairSqDists_nil_right]
  · by_cases h2 : t2 = []
    · subst h2
      simp [compute_min_separation, pairSqDists_nil_left, pairSqDists_nil_right]
    · refine sepVal_eq_of_sq_eq (le_antisymm ?_ ?_)
      · obtain ⟨q, hq, p, hp, heq⟩ := compute_min_separation_attained h2 h1
        calc (compute_min_separation t1 t2).sq ≤ sqDist p q :=
              compute_min_separation_le hp hq
          _ = sqDist q p := sqDist_comm p q
          _ = (compute_min_separation t2 t1).sq := heq.symm
      · obtain ⟨p, hp, q, hq, heq⟩ := compute_min_separation_attained h1 h2
        calc (compute_min_separation t2 t1).sq ≤ sqDist q p :=
              compute_min_separation_le hq hp
          _ = sqDist p q := sqDist_comm q p
          _ = (compute_min_separation t1 t2).sq := heq.symm

/-! ### Helper lemmas: meaning of the squared-separation comparisons -/

theorem sepVal_ltRat_true_iff (v : SepVal) (c : ℚ) :
    v.ltRat c = true ↔ Real.sqrt (v.sq : ℝ) < (c : ℝ) := by
  simp only [SepVal.ltRat, Bool.and_eq_true, decide_eq_true_eq]
  constructor
  · rintro ⟨hc, hlt⟩
    have hc' : (0 : ℝ) < (c : ℝ) := by exact_mod_cast hc
    refine (Real.sqrt_lt' hc').mpr ?_
    exact_mod_cast hlt
  · intro h
    have hc' : (0 : ℝ) < (c : ℝ) := lt_of_le_of_lt (Real.sqrt_nonneg _) h
    have hlt := (Real.sqrt_lt' hc').mp h
    refine ⟨by exact_mod_cast hc', ?_⟩
    exact_mod_cast hlt

theorem sepVal_ltRat_false_iff (v : SepVal) (c : ℚ) :
    v.ltRat c = false ↔ (c : ℝ) ≤ Real.sqrt (v.sq : ℝ) := by
  rw [← not_lt, ← sepVal_ltRat_true_iff]
  cases h : v.ltRat c <;> simp [h]

/-! ### Helper lemmas: the evaluator's traffic loop -/

theorem clearanceStep_skip {m : Mission} {f : Flight} (c : DeconflictionConfig)
    (acc : Option SepVal × List Conflict) (h : flightOverlaps m f = false) :
    clearanceStep m c acc f = acc := by
  simp [clearanceStep, h]

theorem conflicts_fold (m : Mission) (c : DeconflictionConfig) (t : List Flight)
    (acc : Option SepVal × List Conflict) :
    (t.foldl (clearanceStep m c) acc).2 =
      acc.2 ++ (t.filter (conflictPred m c)).map (mkConflict m) := by
  induction t generalizing acc with
  | nil => simp
  | cons f fs ih =>
    rw [List.foldl_cons, ih]
    by_cases ho : flightOverlaps m f
    · by_cases hs : (flightSeparation m f).ltRat c.safety_radius_m
      · simp [clearanceStep, ho, hs, conflictPred, List.filter_cons]
      · simp [clearanceStep, ho, hs, conflictPred, List.filter_cons]
    · simp [clearanceStep, ho, conflictPred, List.filter_cons]

theorem worst_fold_none_iff (m : Mission) (c : DeconflictionConfig)
    (t : List Flight) (acc : Option SepVal × List Conflict) :
    (t.foldl (clearanceStep m c) acc).1 = none ↔
      acc.1 = none ∧ ∀ f ∈ t, flightOverlaps m f = false := by
  induction t generalizing acc with
  | nil => simp
  | cons f fs ih =>
    rw [List.foldl_cons, ih]
    by_cases ho : flightOverlaps m f
    · simp only [clearanceStep, ho, if_true]
      simp [ho]
    · rw [clearanceStep_skip c acc (by simpa using ho)]
      simp [ho]

theorem worst_fold_nonneg (m : Mission) (c : DeconflictionConfig)
    (t : List Flight) (acc : Option SepVal × List Conflict)
    (hacc : ∀ w, acc.1 = some w → 0 ≤ w.sq) :
    ∀ w, (t.foldl (clearanceStep m c) acc).1 = some w → 0 ≤ w.sq := by
  induction t generalizing acc with
  | nil => simpa using hacc
  | cons f fs ih =>
    rw [List.foldl_cons]
    refine ih (clearanceStep m c acc f) ?_
    intro w hw
    by_cases ho : flightOverlaps m f
    · simp only [clearanceStep, ho, if_true] at hw
      cases hacc1 : acc.1 with
      | none =>
        rw [hacc1] at hw
        simp at hw
        rw [← hw]
        exact compute_min_separation_nonneg _ _
      | some v =>
        rw [hacc1] at hw
        simp at hw
        rw [← hw]
        exact le_min (hacc v hacc1) (compute_min_separation_nonneg _ _)
    · rw [clearanceStep_skip c acc (by simpa using ho)] at hw
      exact hacc w hw

/-! ### Helper lemmas: the trajectory sampler -/

theorem linspace_length (a b : ℚ) (num : ℕ) : (linspace a b num).length = num := by
  simp [linspace]

theorem linspace_getD (a b : ℚ) (num : ℕ) {i : ℕ} (hi : i < num) :
    (linspace a b num).getD i 0 = a + i * (b - a) / ((num : ℚ) - 1) := by
  unfold linspace
  rw [List.getD_eq_getElem?_getD, List.getElem?_map, List.getElem?_range hi]
  rfl

theorem mem_linspace {a b : ℚ} {num : ℕ} {t : ℚ} :
    t ∈ linspace a b num ↔
      ∃ i, i < num ∧ t = a + (i : ℚ) * (b - a) / ((num : ℚ) - 1) := by
  simp [linspace, List.mem_map, List.mem_range, eq_comm]

theorem map_getLastD {α : Type} (f : Waypoint → α) (l : List Waypoint) (d : α)
    (h : l ≠ []) : (l.map f).getLastD d = f (l.getLast h) := by
  rw [List.getLastD_eq_getLast?, List.getLast?_map, List.getLast?_eq_getLast l h]
  rfl

/-! ### Helper lemmas: projections of the clearance result -/

theorem result_status (m : Mission) (t : List Flight) (c : DeconflictionConfig) :
    (evaluate_mission_clearance_on m t c).status =
      (if (worst_and_conflicts m t c).2.isEmpty then "clear" else "blocked") := rfl

theorem result_conflicts (m : Mission) (t : List Flight) (c : DeconflictionConfig) :
    (evaluate_mission_clearance_on m t c).conflicts =
      (worst_and_conflicts m t c).2 := rfl

theorem result_risk (m : Mission) (t : List Flight) (c : DeconflictionConfig) :
    (evaluate_mission_clearance_on m t c).risk_level =
      classify_risk_level (worst_and_conflicts m t c).1 c.safety_radius_m := rfl

theorem result_worst (m : Mission) (t : List Flight) (c : DeconflictionConfig) :
    (evaluate_mission_clearance_on m t c).worst_separation_m =
      (worst_and_conflicts m t c).1.map (fun w => round1_sqrt w.sq) := rfl

/-! ### Claim theorems -/

/-- C3: the temporal filter returns true iff
`max(a_start, b_start) < min(a_end, b_end)` (strict inequality), and two
windows that merely touch at a single instant are reported as not
overlapping. -/
theorem temporal_filter_strict_iff (a_start a_end b_start b_end : ℚ) :
    (time_windows_overlap a_start a_end b_start b_end = true ↔
      max a_start b_start < min a_end b_end) ∧
    (max a_start b_start = min a_end b_end →
      time_windows_overlap a_start a_end b_start b_end = false) := by
  refine ⟨by simp [time_windows_overlap], ?_⟩
  intro h
  simp [time_windows_overlap, h]

/-- Witness for C3: the windows `[0, 10]` and `[10, 20]` touch at the
single instant 10 and are reported as not overlapping. -/
theorem temporal_filter_strict_iff_witness :
    time_windows_overlap 0 10 10 20 = false :=
  (temporal_filter_strict_iff 0 10 10 20).2 (by norm_num)

/-- C4: a scheduled flight whose window does not overlap the mission's is
skipped entirely: removing it from the traffic list leaves the whole
evaluation result (in particular the worst separation and the conflicts
list) unchanged, regardless of its trajectory. -/
theorem non_overlapping_flight_skipped (m : Mission) (c : DeconflictionConfig)
    (t1 t2 : List Flight) (f : Flight) (h : flightOverlaps m f = false) :
    evaluate_mission_clearance_on m (t1 ++ f :: t2) c =
      evaluate_mission_clearance_on m (t1 ++ t2) c := by
  have hfold : (t1 ++ f :: t2).foldl (clearanceStep m c) (none, []) =
      (t1 ++ t2).foldl (clearanceStep m c) (none, []) := by
    rw [List.foldl_append, List.foldl_append, List.foldl_cons,
      clearanceStep_skip c _ h]
  simp only [evaluate_mission_clearance_on, worst_and_conflicts, hfold]

/-- Witness for C4: dropping the far-future cargo flight from the traffic
does not change the default mission's evaluation. -/
theorem non_overlapping_flight_skipped_witness :
    evaluate_mission_clearance_on define_perimeter_scan_mission
        ([] ++ far_future_flight :: []) CONFIG =
      evaluate_mission_clearance_on define_perimeter_scan_mission ([] ++ []) CONFIG :=
  non_overlapping_flight_skipped define_perimeter_scan_mission CONFIG [] []
    far_future_flight (by decide)

/-- C5: the conflicts list is exactly the traffic list filtered to the
temporally overlapping flights whose separation is strictly below the
safety radius, in traffic iteration order, each record carrying the
identifier, role, separation rounded to one decimal, and the overlap
window `(max of starts, min of ends)`. -/
theorem conflicts_characterization (m : Mission) (t : List Flight)
    (c : DeconflictionConfig) :
    (evaluate_mission_clearance_on m t c).conflicts =
      (t.filter fun f =>
          flightOverlaps m f &&
            (flightSeparation m f).ltRat c.safety_radius_m).map
        fun f =>
          { drone_id := f.id
            role := f.role
            min_separation_m := round1_sqrt (flightSeparation m f).sq
            overlap_window_s :=
              (max m.t_start f.t_start, min m.t_end f.t_end) } := by
  show (evaluate_mission_clearance_on m t c).conflicts =
    (t.filter (conflictPred m c)).map (mkConflict m)
  rw [result_conflicts]
  simpa using conflicts_fold m c t (none, [])

/-- C6: the status is BLOCKED iff the conflicts list is non-empty, and
CLEAR otherwise. -/
theorem status_blocked_iff (m : Mission) (t : List Flight)
    (c : DeconflictionConfig) :
    ((evaluate_mission_clearance_on m t c).status = "blocked" ↔
      (evaluate_mission_clearance_on m t c).conflicts ≠ []) ∧
    ((evaluate_mission_clearance_on m t c).status = "clear" ↔
      (evaluate_mission_clearance_on m t c).conflicts = []) := by
  rw [result_status, result_conflicts]
  cases h : (worst_and_conflicts m t c).2 with
  | nil => simp
  | cons x xs => simp

set_option maxRecDepth 4000 in
attribute [local semireducible] Rat.add Rat.sub Rat.mul Rat.inv in
/-- C1: in the default hub scenario (default mission, default traffic,
default configuration), the clearance status is blocked and the conflicts
list contains an entry for the early cargo south corridor. -/
theorem default_scenario_blocked :
    (evaluate_mission_clearance none CONFIG).status = "blocked" ∧
    ∃ conf ∈ (evaluate_mission_clearance none CONFIG).conflicts,
      conf.drone_id = "early_cargo_south_corridor" := by
  have hconf2 : (worst_and_conflicts define_perimeter_scan_mission
      define_scheduled_traffic CONFIG).2 =
      (define_scheduled_traffic.filter
        (conflictPred define_perimeter_scan_mission CONFIG)).map
        (mkConflict define_perimeter_scan_mission) := by
    have h := conflicts_fold define_perimeter_scan_mission CONFIG
      define_scheduled_traffic (none, [])
    rw [List.nil_append] at h
    exact h
  have hconf : (evaluate_mission_clearance none CONFIG).conflicts =
      (define_scheduled_traffic.filter
        (conflictPred define_perimeter_scan_mission CONFIG)).map
        (mkConflict define_perimeter_scan_mission) := by
    show (evaluate_mission_clearance_on define_perimeter_scan_mission
        define_scheduled_traffic CONFIG).conflicts = _
    rw [result_conflicts]
    exact hconf2
  have hp : (⟨120, -730/39, 60⟩ : Point3) ∈
      sampledTraj define_perimeter_scan_mission.waypoints := by decide
  have hq : (⟨2300/19, -30, 80⟩ : Point3) ∈
      sampledTraj early_cargo_flight.waypoints := by decide
  have hltq : sqDist ⟨120, -730/39, 60⟩ ⟨2300/19, -30, 80⟩ < 625 := by decide
  have hle := compute_min_separation_le hp hq
  have hlt : (flightSeparation define_perimeter_scan_mission
      early_cargo_flight).ltRat CONFIG.safety_radius_m = true := by
    simp only [SepVal.ltRat, Bool.and_eq_true, decide_eq_true_eq]
    refine ⟨by norm_num [CONFIG], ?_⟩
    have h625 : CONFIG.safety_radius_m ^ 2 = 625 := by norm_num [CONFIG]
    rw [h625]
    exact lt_of_le_of_lt hle hltq
  have hov : flightOverlaps define_perimeter_scan_mission
      early_cargo_flight = true := by decide
  have hfmem : early_cargo_flight ∈ define_scheduled_traffic := by decide
  have hfilter : early_cargo_flight ∈
      define_scheduled_traffic.filter
        (conflictPred define_perimeter_scan_mission CONFIG) :=
    List.mem_filter.mpr ⟨hfmem, by simp [conflictPred, hov, hlt]⟩
  have hcmem : mkConflict define_perimeter_scan_mission early_cargo_flight ∈
      (evaluate_mission_clearance none CONFIG).conflicts := by
    rw [hconf]
    exact List.mem_map_of_mem _ hfilter
  constructor
  · show (evaluate_mission_clearance_on define_perimeter_scan_mission
        define_scheduled_traffic CONFIG).status = "blocked"
    rw [result_status, hconf2]
    cases hcase : define_scheduled_traffic.filter
        (conflictPred define_perimeter_scan_mission CONFIG) with
    | nil => rw [hcase] at hfilter; cases hfilter
    | cons a l => rfl
  · exact ⟨_, hcmem, rfl⟩

set_option maxRecDepth 4000 in
attribute [local semireducible] Rat.add Rat.sub Rat.mul Rat.inv in
/-- C8: two straight parallel segments exactly the default safety radius
(25) apart, with overlapping time windows: the computed minimum separation
equals the safety radius exactly, no conflict record is produced (only a
strictly smaller separation triggers one), and the risk level is MEDIUM. -/
theorem parallel_segments_boundary :
    Real.sqrt (((flightSeparation parallel_mission parallel_flight).sq : ℚ) : ℝ) =
      ((CONFIG.safety_radius_m : ℚ) : ℝ) ∧
    (evaluate_mission_clearance_on parallel_mission [parallel_flight]
        CONFIG).conflicts = [] ∧
    (evaluate_mission_clearance_on parallel_mission [parallel_flight]
        CONFIG).risk_level = "medium" := by
  have hA : ∀ p ∈ sampledTraj parallel_mission.waypoints,
      p.y = 0 ∧ p.z = 100 := by decide
  have hB : ∀ q ∈ sampledTraj parallel_flight.waypoints,
      q.y = 25 ∧ q.z = 100 := by decide
  have hAne : sampledTraj parallel_mission.waypoints ≠ [] := by decide
  have hBne : sampledTraj parallel_flight.waypoints ≠ [] := by decide
  have hlow : ∀ p ∈ sampledTraj parallel_mission.waypoints,
      ∀ q ∈ sampledTraj parallel_flight.waypoints, 625 ≤ sqDist p q := by
    intro p hp q hq
    obtain ⟨hy, hz⟩ := hA p hp
    obtain ⟨hy', hz'⟩ := hB q hq
    rw [sqDist, hy, hz, hy', hz']
    nlinarith [sq_nonneg (p.x - q.x)]
  have hge : 625 ≤ (flightSeparation parallel_mission parallel_flight).sq :=
    le_compute_min_separation hAne hBne hlow
  have hp0 : (⟨0, 0, 100⟩ : Point3) ∈ sampledTraj parallel_mission.waypoints := by
    decide
  have hq0 : (⟨0, 25, 100⟩ : Point3) ∈ sampledTraj parallel_flight.waypoints := by
    decide
  have hle := compute_min_separation_le hp0 hq0
  have hd0 : sqDist ⟨0, 0, 100⟩ ⟨0, 25, 100⟩ = 625 := by decide
  have hsep : (flightSeparation parallel_mission parallel_flight).sq = 625 :=
    le_antisymm (le_of_le_of_eq hle hd0) hge
  have hlt1 : (flightSeparation parallel_mission parallel_flight).ltRat
      CONFIG.safety_radius_m = false := by
    simp only [SepVal.ltRat, hsep]
    decide
  have hlt2 : (flightSeparation parallel_mission parallel_flight).ltRat
      (2 * CONFIG.safety_radius_m) = true := by
    simp only [SepVal.ltRat, hsep]
    decide
  have hov : flightOverlaps parallel_mission parallel_flight = true := by decide
  have hworst : (worst_and_conflicts parallel_mission [parallel_flight] CONFIG).1 =
      some (flightSeparation parallel_mission parallel_flight) := by
    simp [worst_and_conflicts, clearanceStep, hov]
  refine ⟨?_, ?_, ?_⟩
  · rw [hsep]
    rw [show (((625 : ℚ) : ℝ)) = ((CONFIG.safety_radius_m : ℚ) : ℝ) ^ 2 by
      norm_num [CONFIG]]
    exact Real.sqrt_sq (by norm_num [CONFIG])
  · rw [result_conflicts]
    simp [worst_and_conflicts, clearanceStep, hov, hlt1]
  · rw [result_risk, hworst]
    simp [classify_risk_level, hlt1, hlt2]

/-- C2: the reported risk level is determined by the running worst-case
separation and the safety radius: when no scheduled flight overlaps the
mission temporally the risk is LOW and the worst separation is reported
absent; otherwise the running worst-case separation `√w.sq` exists, and
the risk is HIGH when it is below the safety radius, MEDIUM when it is at
least the radius but below twice the radius, and LOW when it is at least
twice the radius (boundaries falling in the lower-risk bucket). -/
theorem risk_level_policy (m : Mission) (t : List Flight)
    (c : DeconflictionConfig) (hr : 0 < c.safety_radius_m) :
    ((∀ f ∈ t, flightOverlaps m f = false) →
      (evaluate_mission_clearance_on m t c).risk_level = "low" ∧
      (evaluate_mission_clearance_on m t c).worst_separation_m = none) ∧
    ((∃ f ∈ t, flightOverlaps m f = true) →
      ∃ w, (worst_and_conflicts m t c).1 = some w) ∧
    (∀ w, (worst_and_conflicts m t c).1 = some w →
      (Real.sqrt (w.sq : ℝ) < (c.safety_radius_m : ℝ) →
        (evaluate_mission_clearance_on m t c).risk_level = "high") ∧
      ((c.safety_radius_m : ℝ) ≤ Real.sqrt (w.sq : ℝ) ∧
          Real.sqrt (w.sq : ℝ) < 2 * (c.safety_radius_m : ℝ) →
        (evaluate_mission_clearance_on m t c).risk_level = "medium") ∧
      (2 * (c.safety_radius_m : ℝ) ≤ Real.sqrt (w.sq : ℝ) →
        (evaluate_mission_clearance_on m t c).risk_level = "low")) := by
  refine ⟨?_, ?_, ?_⟩
  · intro hno
    have hnone : (worst_and_conflicts m t c).1 = none :=
      (worst_fold_none_iff m c t (none, [])).mpr ⟨rfl, hno⟩
    rw [result_risk, result_worst, hnone]
    exact ⟨rfl, rfl⟩
  · rintro ⟨f, hf, hov⟩
    cases h : (worst_and_conflicts m t c).1 with
    | none =>
      obtain ⟨-, hall⟩ := (worst_fold_none_iff m c t (none, [])).mp h
      rw [hall f hf] at hov
      cases hov
    | some w => exact ⟨w, rfl⟩
  · intro w hw
    rw [result_risk, hw]
    have hcast : ((2 * c.safety_radius_m : ℚ) : ℝ) =
        2 * (c.safety_radius_m : ℝ) := by push_cast; ring
    refine ⟨?_, ?_, ?_⟩
    · intro hlt
      have h1 : w.ltRat c.safety_radius_m = true :=
        (sepVal_ltRat_true_iff w c.safety_radius_m).mpr hlt
      simp [classify_risk_level, h1]
    · rintro ⟨hge, hlt2⟩
      have h1 : w.ltRat c.safety_radius_m = false :=
        (sepVal_ltRat_false_iff w c.safety_radius_m).mpr hge
      have h2 : w.ltRat (2 * c.safety_radius_m) = true := by
        refine (sepVal_ltRat_true_iff w _).mpr ?_
        rw [hcast]
        exact hlt2
      simp [classify_risk_level, h1, h2]
    · intro hge2
      have h2 : w.ltRat (2 * c.safety_radius_m) = false := by
        refine (sepVal_ltRat_false_iff w _).mpr ?_
        rw [hcast]
        exact hge2
      have h1 : w.ltRat c.safety_radius_m = false := by
        refine (sepVal_ltRat_false_iff w _).mpr ?_
        have hr' : (0 : ℝ) < (c.safety_radius_m : ℝ) := by exact_mod_cast hr
        have : (c.safety_radius_m : ℝ) ≤ 2 * (c.safety_radius_m : ℝ) := by linarith
        exact le_trans this hge2
      simp [classify_risk_level, h1, h2]

/-- Witness for C2: the risk policy instantiated on the default hub
scenario (safety radius 25). -/
theorem risk_level_policy_witness :
    ((∀ f ∈ define_scheduled_traffic,
        flightOverlaps define_perimeter_scan_mission f = false) →
      (evaluate_mission_clearance_on define_perimeter_scan_mission
          define_scheduled_traffic CONFIG).risk_level = "low" ∧
      (evaluate_mission_clearance_on define_perimeter_scan_mission
          define_scheduled_traffic CONFIG).worst_separation_m = none) ∧
    ((∃ f ∈ define_scheduled_traffic,
        flightOverlaps define_perimeter_scan_mission f = true) →
      ∃ w, (worst_and_conflicts define_perimeter_scan_mission
          define_scheduled_traffic CONFIG).1 = some w) ∧
    (∀ w, (worst_and_conflicts define_perimeter_scan_mission
          define_scheduled_traffic CONFIG).1 = some w →
      (Real.sqrt (w.sq : ℝ) < (CONFIG.safety_radius_m : ℝ) →
        (evaluate_mission_clearance_on define_perimeter_scan_mission
            define_scheduled_traffic CONFIG).risk_level = "high") ∧
      ((CONFIG.safety_radius_m : ℝ) ≤ Real.sqrt (w.sq : ℝ) ∧
          Real.sqrt (w.sq : ℝ) < 2 * (CONFIG.safety_radius_m : ℝ) →
        (evaluate_mission_clearance_on define_perimeter_scan_mission
            define_scheduled_traffic CONFIG).risk_level = "medium") ∧
      (2 * (CONFIG.safety_radius_m : ℝ) ≤ Real.sqrt (w.sq : ℝ) →
        (evaluate_mission_clearance_on define_perimeter_scan_mission
            define_scheduled_traffic CONFIG).risk_level = "low")) :=
  risk_level_policy define_perimeter_scan_mission define_scheduled_traffic
    CONFIG (by norm_num [CONFIG])

/-- C9: the separation estimator is symmetric, its stored square is
non-negative, and the represented value (its square root, i.e. the
minimum Euclidean distance) is a lower bound of, and attained among, the
pairwise Euclidean distances `√(sqDist p q)` over all sample pairs. -/
theorem separation_estimator_spec (A B : List Point3) (hA : A ≠ []) (hB : B ≠ []) :
    compute_min_separation A B = compute_min_separation B A ∧
    0 ≤ (compute_min_separation A B).sq ∧
    0 ≤ Real.sqrt (((compute_min_separation A B).sq : ℚ) : ℝ) ∧
    (∀ p ∈ A, ∀ q ∈ B,
      Real.sqrt (((compute_min_separation A B).sq : ℚ) : ℝ) ≤
        Real.sqrt ((sqDist p q : ℚ) : ℝ)) ∧
    (∃ p ∈ A, ∃ q ∈ B,
      Real.sqrt (((compute_min_separation A B).sq : ℚ) : ℝ) =
        Real.sqrt ((sqDist p q : ℚ) : ℝ)) := by
  refine ⟨compute_min_separation_comm A B,
    compute_min_separation_nonneg A B, Real.sqrt_nonneg _, ?_, ?_⟩
  · intro p hp q hq
    refine Real.sqrt_le_sqrt ?_
    exact_mod_cast compute_min_separation_le hp hq
  · obtain ⟨p, hp, q, hq, heq⟩ := compute_min_separation_attained hA hB
    exact ⟨p, hp, q, hq, by rw [heq]⟩

/-- Witness for C9: the estimator spec instantiated on two one-point
trajectories at distance 5. -/
theorem separation_estimator_spec_witness :
    compute_min_separation [⟨0, 0, 0⟩] [⟨3, 4, 0⟩] =
        compute_min_separation [⟨3, 4, 0⟩] [⟨0, 0, 0⟩] ∧
    0 ≤ (compute_min_separation [⟨0, 0, 0⟩] [⟨3, 4, 0⟩]).sq ∧
    0 ≤ Real.sqrt (((compute_min_separation [⟨0, 0, 0⟩] [⟨3, 4, 0⟩]).sq : ℚ) : ℝ) ∧
    (∀ p ∈ [(⟨0, 0, 0⟩ : Point3)], ∀ q ∈ [(⟨3, 4, 0⟩ : Point3)],
      Real.sqrt (((compute_min_separation [⟨0, 0, 0⟩] [⟨3, 4, 0⟩]).sq : ℚ) : ℝ) ≤
        Real.sqrt ((sqDist p q : ℚ) : ℝ)) ∧
    (∃ p ∈ [(⟨0, 0, 0⟩ : Point3)], ∃ q ∈ [(⟨3, 4, 0⟩ : Point3)],
      Real.sqrt (((compute_min_separation [⟨0, 0, 0⟩] [⟨3, 4, 0⟩]).sq : ℚ) : ℝ) =
        Real.sqrt ((sqDist p q : ℚ) : ℝ)) :=
  separation_estimator_spec [⟨0, 0, 0⟩] [⟨3, 4, 0⟩] (by simp) (by simp)

/-- C7: for a waypoint sequence of at least two elements with
non-decreasing timestamps and positive sampling density, the sampler
produces exactly `max(waypoint_count * samples_per_segment, 2)` sampled
points and sample times; the sample times follow a single uniform linear
spacing over the global time span, start at the first waypoint's time,
end at the last waypoint's time, and all lie within that range. -/
theorem sampler_count_and_range (waypoints : List Waypoint) (w0 wlast : Waypoint)
    (sps : ℕ) (_hlen : 2 ≤ waypoints.length)
    (h0 : waypoints.head? = some w0)
    (hlast : waypoints.getLast? = some wlast)
    (hsorted : List.Sorted (· ≤ ·) (waypoints.map Waypoint.time))
    (_hsps : 0 < sps) :
    (interpolate_trajectory_3d waypoints sps).1.length =
        max (waypoints.length * sps) 2 ∧
    (interpolate_trajectory_3d waypoints sps).2.length =
        max (waypoints.length * sps) 2 ∧
    (∀ i < max (waypoints.length * sps) 2,
      (interpolate_trajectory_3d waypoints sps).2.getD i 0 =
        w0.time + (i : ℚ) * (wlast.time - w0.time) /
          (((max (waypoints.length * sps) 2 : ℕ) : ℚ) - 1)) ∧
    (interpolate_trajectory_3d waypoints sps).2.getD 0 0 = w0.time ∧
    (interpolate_trajectory_3d waypoints sps).2.getD
        (max (waypoints.length * sps) 2 - 1) 0 = wlast.time ∧
    (∀ t ∈ (interpolate_trajectory_3d waypoints sps).2,
      w0.time ≤ t ∧ t ≤ wlast.time) := by
  have hn2 : 2 ≤ max (waypoints.length * sps) 2 := le_max_right _ _
  have hnQpos : (0 : ℚ) < ((max (waypoints.length * sps) 2 : ℕ) : ℚ) - 1 := by
    have h' : ((2 : ℕ) : ℚ) ≤ ((max (waypoints.length * sps) 2 : ℕ) : ℚ) := by
      exact_mod_cast hn2
    have h2 : ((2 : ℕ) : ℚ) = 2 := by norm_num
    rw [h2] at h'
    linarith
  have hts : (interpolate_trajectory_3d waypoints sps).2 =
      linspace w0.time wlast.time (max (waypoints.length * sps) 2) := by
    have hh : (waypoints.map Waypoint.time).headD 0 = w0.time := by
      rw [List.headD_eq_head?_getD, List.head?_map, h0]
      rfl
    have hl : (waypoints.map Waypoint.time).getLastD 0 = wlast.time := by
      rw [List.getLastD_eq_getLast?, List.getLast?_map, hlast]
      rfl
    show linspace ((waypoints.map Waypoint.time).headD 0)
        ((waypoints.map Waypoint.time).getLastD 0)
        (max (waypoints.length * sps) 2) = _
    rw [hh, hl]
  have ht01 : w0.time ≤ wlast.time := by
    cases hw : waypoints with
    | nil => rw [hw] at h0; cases h0
    | cons a l =>
      rw [hw] at h0
      have ha : a = w0 := by simpa using h0
      subst ha
      have hmem : wlast ∈ waypoints := List.mem_of_getLast?_eq_some hlast
      rw [hw] at hmem
      rcases List.mem_cons.mp hmem with h | h
      · rw [h]
      · rw [hw, List.map_cons] at hsorted
        have hhead := (List.pairwise_cons.mp hsorted).1
        exact hhead wlast.time (List.mem_map.mpr ⟨wlast, h, rfl⟩)
  refine ⟨?_, ?_, ?_, ?_, ?_, ?_⟩
  · show ((interpolate_trajectory_3d waypoints sps).2.map _).length = _
    rw [List.length_map, hts, linspace_length]
  · rw [hts, linspace_length]
  · intro i hi
    rw [hts, linspace_getD _ _ _ hi]
  · rw [hts, linspace_getD _ _ _ (by omega : 0 < max (waypoints.length * sps) 2)]
    simp
  · rw [hts, linspace_getD _ _ _
      (by omega : max (waypoints.length * sps) 2 - 1 < max (waypoints.length * sps) 2)]
    rw [Nat.cast_sub (by omega : 1 ≤ max (waypoints.length * sps) 2), Nat.cast_one]
    rw [mul_div_cancel_left₀ (wlast.time - w0.time) (ne_of_gt hnQpos)]
    ring
  · intro t ht
    rw [hts] at ht
    obtain ⟨i, hi, rfl⟩ := mem_linspace.mp ht
    have hba : (0 : ℚ) ≤ wlast.time - w0.time := by linarith
    have hiq : (i : ℚ) ≤ ((max (waypoints.length * sps) 2 : ℕ) : ℚ) - 1 := by
      have h' : (i : ℚ) + 1 ≤ ((max (waypoints.length * sps) 2 : ℕ) : ℚ) := by
        exact_mod_cast Nat.succ_le_of_lt hi
      linarith
    constructor
    · have : (0 : ℚ) ≤ (i : ℚ) * (wlast.time - w0.time) /
          (((max (waypoints.length * sps) 2 : ℕ) : ℚ) - 1) :=
        div_nonneg (mul_nonneg (Nat.cast_nonneg i) hba) (le_of_lt hnQpos)
      linarith
    · have h1 : (i : ℚ) * (wlast.time - w0.time) ≤
          (((max (waypoints.length * sps) 2 : ℕ) : ℚ) - 1) * (wlast.time - w0.time) :=
        mul_le_mul_of_nonneg_right hiq hba
      have h2 : (i : ℚ) * (wlast.time - w0.time) /
          (((max (waypoints.length * sps) 2 : ℕ) : ℚ) - 1) ≤ wlast.time - w0.time := by
        rw [div_le_iff₀ hnQpos]
        linarith
      linarith

/-- Witness for C7: the sampler spec instantiated on a two-waypoint
straight segment from time 0 to time 10 with one sample per segment. -/
theorem sampler_count_and_range_witness :
    (interpolate_trajectory_3d [⟨0, 0, 0, 0⟩, ⟨10, 0, 0, 10⟩] 1).1.length =
        max ([(⟨0, 0, 0, 0⟩ : Waypoint), ⟨10, 0, 0, 10⟩].length * 1) 2 ∧
    (interpolate_trajectory_3d [⟨0, 0, 0, 0⟩, ⟨10, 0, 0, 10⟩] 1).2.length =
        max ([(⟨0, 0, 0, 0⟩ : Waypoint), ⟨10, 0, 0, 10⟩].length * 1) 2 ∧
    (∀ i < max ([(⟨0, 0, 0, 0⟩ : Waypoint), ⟨10, 0, 0, 10⟩].length * 1) 2,
      (interpolate_trajectory_3d [⟨0, 0, 0, 0⟩, ⟨10, 0, 0, 10⟩] 1).2.getD i 0 =
        (⟨0, 0, 0, 0⟩ : Waypoint).time + (i : ℚ) *
            ((⟨10, 0, 0, 10⟩ : Waypoint).time - (⟨0, 0, 0, 0⟩ : Waypoint).time) /
          (((max ([(⟨0, 0, 0, 0⟩ : Waypoint), ⟨10, 0, 0, 10⟩].length * 1) 2 : ℕ) : ℚ) - 1)) ∧
    (interpolate_trajectory_3d [⟨0, 0, 0, 0⟩, ⟨10, 0, 0, 10⟩] 1).2.getD 0 0 =
        (⟨0, 0, 0, 0⟩ : Waypoint).time ∧
    (interpolate_trajectory_3d [⟨0, 0, 0, 0⟩, ⟨10, 0, 0, 10⟩] 1).2.getD
        (max ([(⟨0, 0, 0, 0⟩ : Waypoint), ⟨10, 0, 0, 10⟩].length * 1) 2 - 1) 0 =
        (⟨10, 0, 0, 10⟩ : Waypoint).time ∧
    (∀ t ∈ (interpolate_trajectory_3d [⟨0, 0, 0, 0⟩, ⟨10, 0, 0, 10⟩] 1).2,
      (⟨0, 0, 0, 0⟩ : Waypoint).time ≤ t ∧ t ≤ (⟨10, 0, 0, 10⟩ : Waypoint).time) :=
  sampler_count_and_range [⟨0, 0, 0, 0⟩, ⟨10, 0, 0, 10⟩] ⟨0, 0, 0, 0⟩ ⟨10, 0, 0, 10⟩ 1
    (by simp) (by rfl) (by rfl) (by simp [List.Sorted]) (by norm_num)

/-- C10: a `none` mission argument evaluates the built-in perimeter-scan
mission: for every configuration the result coincides with passing that
mission explicitly. -/
theorem none_mission_uses_default (config : DeconflictionConfig) :
    evaluate_mission_clearance none config =
      evaluate_mission_clearance (some define_perimeter_scan_mission) config := rfl

end Deconfliction
